import Mathlib

/-!
Verification development for a small MCP server (`mcp_server.py`).

The server exposes tools over three stores:
  * an in-process document map `docs` (a Python dict, insertion ordered);
  * a relational `todos` table reached through SQL statements;
  * a remote weather-alert HTTP API returning GeoJSON.

We embed these shallowly: the Python dict becomes an insertion-ordered
association list, SQL statements become functions on a list of rows, and
the HTTP response becomes an explicit parameter holding the JSON body.
Fallible operations (Python `raise ValueError`) return `Except String`.
-/

namespace MCPServer

/-- A Python dict with string keys and values: insertion-ordered
association list.  Python dicts keep insertion order and assignment to an
existing key updates in place. -/
abbrev DocMap := List (String × String)

/-- Lookup `d[k]` (and the `k in d` membership test) for the dict model:
first (and in a dict, only) binding of `k`. -/
def dictGet (k : String) : DocMap → Option String
  | [] => none
  | (k₁, v) :: rest => if k₁ = k then some v else dictGet k rest

/-- Assignment `d[k] = v` for the dict model: update in place when the key
exists, append otherwise (Python dict assignment semantics). -/
def dictSet (k v : String) : DocMap → DocMap
  | [] => [(k, v)]
  | (k₁, v₁) :: rest =>
      if k₁ = k then (k, v) :: rest else (k₁, v₁) :: dictSet k v rest

/-- The module-level `docs` dict of `mcp_server.py`, with its six seeded
entries in source order. -/
def docs : DocMap :=
  [ ("deposition.md", "This deposition covers the testimony of Angela Smith, P.E."),
    ("report.pdf", "The report details the state of a 20m condenser tower."),
    ("financials.docx", "These financials outline the project\x27s budget and expenditures."),
    ("outlook.pdf", "This document presents the projected future performance of the system."),
    ("plan.md", "The plan outlines the steps for the project\x27s implementation."),
    ("spec.txt", "These specifications define the technical requirements for the equipment.") ]

/-- Python `str.replace(old, new)` on character lists: scan left to right,
replacing each leftmost non-overlapping occurrence of `old` by `new`.  When
`old` is empty, Python inserts `new` before every character and once at the
end (`"abc".replace("", "x") == "xaxbxcx"`). -/
def pyReplace (old new : List Char) : List Char → List Char
  | [] => if old = [] then new else []
  | c :: rest =>
      if h : old ≠ [] ∧ old.isPrefixOf (c :: rest) then
        new ++ pyReplace old new ((c :: rest).drop old.length)
      else if old = [] then
        new ++ c :: pyReplace old new rest
      else
        c :: pyReplace old new rest
  termination_by s => s.length
  decreasing_by
    · have hlen : 0 < old.length := List.length_pos.mpr h.1
      simp only [List.length_drop, List.length_cons]
      omega
    · simp
    · simp

/-- Python `str.replace` lifted to `String` (Lean strings carry their
character list in `.data`). -/
def strReplace (s old new : String) : String :=
  ⟨pyReplace old.data new.data s.data⟩

/-- Tool `read_doc_contents` (`read_document` in source): raises when the
id is unknown, otherwise logs through the context and returns the content.
The returned pair is (content, informational log messages emitted). -/
def read_document (doc_id : String) (d : DocMap) :
    Except String (String × List String) :=
  match dictGet doc_id d with
  | none => .error ("Document with id " ++ doc_id ++ " not found")
  | some content => .ok (content, ["Reading content from " ++ doc_id])

/-- Tool `edit_document`: raises when the id is unknown, otherwise stores
`docs[doc_id].replace(old_str, new_str)` back into the dict. -/
def edit_document (doc_id old_str new_str : String) (d : DocMap) :
    Except String DocMap :=
  match dictGet doc_id d with
  | none => .error ("Document with id " ++ doc_id ++ " not found")
  | some content => .ok (dictSet doc_id (strReplace content old_str new_str) d)

/-- Resource `docs://documents` (`list_docs` in source): `list(docs.keys())`. -/
def list_docs (d : DocMap) : List String :=
  d.map Prod.fst

/-- Resource `docs://documents/{doc_id}` (`fetch_doc` in source): raises
when the id is unknown, otherwise returns the content; no logging. -/
def fetch_doc (doc_id : String) (d : DocMap) : Except String String :=
  match dictGet doc_id d with
  | none => .error ("Document with id " ++ doc_id ++ " not found")
  | some content => .ok content

/-! ## Todos table

Modelled from the spec: the `todos` table schema lives in the external
database, not in this repository.  The spec gives its columns, in order, as
{id (generated), title, description (optional), is_completed (boolean),
created_at (timestamp)}, with `is_completed` defaulting to false on insert
("add_todo ... yields a record with ... is_completed false") and notes that
the write path refers to this boolean column as `completed` while the read
path labels it `is_completed` — we model them as the single boolean column
at position 3. -/

/-- Modelled from the spec: one row of the external `todos` table, columns
in `SELECT *` order.  The boolean column at position 3 is the one the
source reads as `is_completed` and updates as `completed`. -/
structure TodoRow where
  id : Nat
  title : String
  description : Option String
  is_completed : Bool
  created_at : Nat
  deriving DecidableEq, Repr

/-- The external `todos` table: a sequence of rows in database order. -/
abbrev TodoDb := List TodoRow

/-- The dictionary built per row by `read_todos` (keys id, title,
description, is_completed, created_at, mapped positionally from the row). -/
structure TodoRecord where
  id : Nat
  title : String
  description : Option String
  is_completed : Bool
  created_at : Nat
  deriving DecidableEq, Repr

/-- Tool `read_todos`: `SELECT * FROM todos`, each row mapped positionally
into a record. -/
def read_todos (db : TodoDb) : List TodoRecord :=
  db.map fun r =>
    { id := r.id, title := r.title, description := r.description,
      is_completed := r.is_completed, created_at := r.created_at }

/-- Tool `add_todo`: `INSERT INTO todos (title, description) VALUES (%s, %s)`.
The database generates `id` and `created_at` (passed here as parameters)
and fills the boolean column with its default false (modelled from the
spec). -/
def add_todo (title : String) (description : Option String) (db : TodoDb)
    (newId now : Nat) : TodoDb :=
  db ++ [{ id := newId, title := title, description := description,
           is_completed := false, created_at := now }]

/-- Tool `complete_todo`: `UPDATE todos SET completed = TRUE WHERE title = %s`,
then raises when the affected-row count is zero.  The update commits before
the zero-count check, but a zero-match update leaves the table unchanged. -/
def complete_todo (title : String) (db : TodoDb) : Except String TodoDb :=
  let updated := db.map fun r =>
    if r.title = title then { r with is_completed := true } else r
  let updated_rows := (db.filter fun r => r.title == title).length
  if updated_rows = 0 then
    .error ("Todo item with title " ++ title ++ " was not found")
  else
    .ok updated

/-- Tool `delete_todo`: `DELETE FROM todos WHERE title = %s`, then raises
when the affected-row count is zero. -/
def delete_todo (title : String) (db : TodoDb) : Except String TodoDb :=
  let remaining := db.filter fun r => !(r.title == title)
  let updated_rows := (db.filter fun r => r.title == title).length
  if updated_rows = 0 then
    .error ("Todo item with title " ++ title ++ " was not found")
  else
    .ok remaining

/-! ## Weather alerts -/

/-- JSON values, as decoded by `response.json()`. -/
inductive Json where
  | null
  | bool (b : Bool)
  | num (n : Int)
  | str (s : String)
  | arr (elems : List Json)
  | obj (fields : List (String × Json))

/-- Python dict `.get(k)` on a decoded JSON object: first binding of `k`. -/
def jsonGet (k : String) : List (String × Json) → Option Json
  | [] => none
  | (k₁, v) :: rest => if k₁ = k then some v else jsonGet k rest

/-- The five-field projection built by `format_weather_alert`. -/
structure WeatherAlert where
  Event : Json
  Area : Json
  Severity : Json
  Description : Json
  Instruction : Json

/-- Helper `format_weather_alert(feature)`: `feature.get("properties")`
followed by five `.get(key, "Unknown")` calls.  When the feature is not a JSON object,
or its `properties` entry is absent or not an object, the `.get` attribute
access raises (AttributeError on `None` or on a non-dict value). -/
def format_weather_alert (feature : Json) : Except String WeatherAlert :=
  match feature with
  | .obj fields =>
      match jsonGet "properties" fields with
      | some (.obj props) =>
          .ok { Event := (jsonGet "event" props).getD (.str "Unknown"),
                Area := (jsonGet "areaDesc" props).getD (.str "Unknown"),
                Severity := (jsonGet "severity" props).getD (.str "Unknown"),
                Description := (jsonGet "description" props).getD (.str "Unknown"),
                Instruction := (jsonGet "instruction" props).getD (.str "Unknown") }
      | _ => .error "AttributeError"
  | _ => .error "AttributeError"

/-- The outcome of `requests.get` + `raise_for_status()`: either a decoded
JSON body, or an exception message (non-2xx status or network failure). -/
inductive HttpResult where
  | success (body : Json)
  | failure (msg : String)

/-- The wrapper applied by the `except` clause of `get_weather_alerts`:
`ValueError(f"Error fetching weather alerts for {state}: {str(e)}")`. -/
def wrapError (state msg : String) : String :=
  "Error fetching weather alerts for " ++ state ++ ": " ++ msg

/-- The list comprehension `[format_weather_alert(f) for f in features]`:
features processed left to right, the first exception aborting the whole
comprehension. -/
def listAlerts : List Json → Except String (List WeatherAlert)
  | [] => .ok []
  | f :: rest =>
      match format_weather_alert f with
      | .error e => .error e
      | .ok a =>
          match listAlerts rest with
          | .error e => .error e
          | .ok as => .ok (a :: as)

/-- Tool `get_weather_alerts`: on a non-success response the raised status
error is wrapped; on success `response.json()["features"]` is read (a
missing key raises KeyError, wrapped) and mapped through
`format_weather_alert`, any exception wrapped.  A body or `features` value
of the wrong JSON shape makes the lookup or the iteration raise; we
collapse those exotic shapes to the wrapped error as well. -/
def get_weather_alerts (state : String) (resp : HttpResult) :
    Except String (List WeatherAlert) :=
  match resp with
  | .failure msg => .error (wrapError state msg)
  | .success body =>
      match body with
      | .obj fields =>
          match jsonGet "features" fields with
          | some (.arr features) =>
              match listAlerts features with
              | .ok alerts => .ok alerts
              | .error e => .error (wrapError state e)
          | some _ => .error (wrapError state "TypeError")
          | none => .error (wrapError state "KeyError")
      | _ => .error (wrapError state "TypeError")

/-! ## Helper lemmas -/

/-- Updating an existing key leaves the key sequence of the dict unchanged. -/
theorem dictSet_map_fst_of_mem (k v v₀ : String) (d : DocMap)
    (h : dictGet k d = some v₀) :
    (dictSet k v d).map Prod.fst = d.map Prod.fst := by
  induction d with
  | nil => simp [dictGet] at h
  | cons p rest ih =>
      obtain ⟨k₁, v₁⟩ := p
      by_cases hk : k₁ = k
      · subst hk
        simp [dictSet]
      · simp only [dictGet, if_neg hk] at h
        simp [dictSet, hk, ih h]

/-- Writing back the value a key already holds leaves the dict unchanged. -/
theorem dictSet_self (k v : String) (d : DocMap) (h : dictGet k d = some v) :
    dictSet k v d = d := by
  induction d with
  | nil => simp [dictGet] at h
  | cons p rest ih =>
      obtain ⟨k₁, v₁⟩ := p
      by_cases hk : k₁ = k
      · subst hk
        simp only [dictGet, if_true, eq_self_iff_true, Option.some.injEq] at h
        simp [dictSet, h]
      · simp only [dictGet, if_neg hk] at h
        simp [dictSet, hk, ih h]

/-! ## Document claims -/

/-- C3: `read_document(doc_id)` fails with the NotFound error exactly when
`doc_id` is absent from the document map, and when present returns exactly
the stored content (plus the informational log message). -/
theorem read_document_contract (doc_id : String) (d : DocMap) :
    ((∃ msg, read_document doc_id d = .error msg) ↔ dictGet doc_id d = none)
    ∧ (∀ content, dictGet doc_id d = some content →
        read_document doc_id d
          = .ok (content, ["Reading content from " ++ doc_id]))
    ∧ (dictGet doc_id d = none →
        read_document doc_id d
          = .error ("Document with id " ++ doc_id ++ " not found")) := by
  cases h : dictGet doc_id d <;> simp [read_document, h]

/-- Witness for C3 at a concrete seeded document and at a missing id. -/
theorem read_document_contract_witness :
    read_document "plan.md" docs
      = .ok ("The plan outlines the steps for the project\x27s implementation.",
             ["Reading content from plan.md"])
    ∧ read_document "nope.md" docs
      = .error ("Document with id " ++ "nope.md" ++ " not found") :=
  ⟨(read_document_contract "plan.md" docs).2.1 _ (by decide),
   (read_document_contract "nope.md" docs).2.2 (by decide)⟩

/-- C8: `fetch_doc(doc_id)` has the same lookup and failure contract as
`read_document(doc_id)` on every state of the map: it equals
`read_document` with the logging component of the result dropped. -/
theorem fetch_doc_refines_read_document (doc_id : String) (d : DocMap) :
    fetch_doc doc_id d = (read_document doc_id d).map Prod.fst := by
  cases h : dictGet doc_id d <;> simp [fetch_doc, read_document, h, Except.map]

/-- C7: `list_docs()` returns the six seeded ids in insertion order on the
fresh map, and any successful `edit_document` call leaves the id list (and
hence any sequence of such calls leaves it) unchanged. -/
theorem list_docs_spec :
    list_docs docs = ["deposition.md", "report.pdf", "financials.docx",
                      "outlook.pdf", "plan.md", "spec.txt"]
    ∧ ∀ (d d' : DocMap) (doc_id old_str new_str : String),
        edit_document doc_id old_str new_str d = .ok d' →
        list_docs d' = list_docs d := by
  constructor
  · rfl
  · intro d d' doc_id old_str new_str h
    unfold edit_document at h
    cases hget : dictGet doc_id d with
    | none => rw [hget] at h; cases h
    | some content =>
        rw [hget] at h
        cases h
        exact dictSet_map_fst_of_mem doc_id _ content d hget

/-- Witness for C7: a concrete successful edit preserves the id list. -/
theorem list_docs_spec_witness :
    list_docs (dictSet "plan.md"
      (strReplace "The plan outlines the steps for the project\x27s implementation."
        "plan" "scheme") docs) = list_docs docs :=
  list_docs_spec.2 docs _ "plan.md" "plan" "scheme" rfl

/-- C6: `add_todo(X, Y)` followed by `read_todos()` yields a record with
title X, description Y and is_completed false (the freshly inserted row,
whatever id and timestamp the database generates). -/
theorem add_todo_then_read (title : String) (description : Option String)
    (db : TodoDb) (newId now : Nat) :
    ∃ rec ∈ read_todos (add_todo title description db newId now),
      rec.title = title ∧ rec.description = description
        ∧ rec.is_completed = false := by
  refine ⟨{ id := newId, title := title, description := description,
            is_completed := false, created_at := now }, ?_, rfl, rfl, rfl⟩
  simp [read_todos, add_todo]

/-! ## Todo claims -/

/-- C1: when at least one row matches the title, `complete_todo(title)`
succeeds and a subsequent `read_todos()` shows every record carrying that
title with is_completed true (and at least one such record exists). -/
theorem complete_todo_then_read (title : String) (db : TodoDb)
    (h : ∃ r ∈ db, r.title = title) :
    ∃ db', complete_todo title db = .ok db'
      ∧ (∀ rec ∈ read_todos db', rec.title = title → rec.is_completed = true)
      ∧ (∃ rec ∈ read_todos db', rec.title = title) := by
  obtain ⟨r, hr, hrt⟩ := h
  have hmem : r ∈ db.filter fun r => r.title == title := by
    simp [List.mem_filter, hr, hrt]
  have hcount : ¬ (db.filter fun r => r.title == title).length = 0 := by
    intro h0
    rw [List.length_eq_zero] at h0
    rw [h0] at hmem
    cases hmem
  refine ⟨db.map fun r =>
      if r.title = title then { r with is_completed := true } else r,
    ?_, ?_, ?_⟩
  · simp only [complete_todo]
    rw [if_neg hcount]
  · intro rec hrec hrt'
    simp only [read_todos, List.map_map, List.mem_map, Function.comp] at hrec
    obtain ⟨r₀, _, hproj⟩ := hrec
    by_cases hc : r₀.title = title
    · rw [if_pos hc] at hproj
      rw [← hproj]
    · rw [if_neg hc] at hproj
      rw [← hproj] at hrt'
      exact absurd hrt' hc
  · refine ⟨TodoRecord.mk r.id r.title r.description true r.created_at, ?_, hrt⟩
    simp only [read_todos, List.map_map, List.mem_map, Function.comp]
    exact ⟨r, hr, by rw [if_pos hrt]⟩

/-- Witness for C1: completing the unique row of a one-row table. -/
theorem complete_todo_then_read_witness :
    ∃ db', complete_todo "t" [TodoRow.mk 1 "t" none false 0] = .ok db'
      ∧ (∀ rec ∈ read_todos db', rec.title = "t" → rec.is_completed = true)
      ∧ (∃ rec ∈ read_todos db', rec.title = "t") :=
  complete_todo_then_read "t" [TodoRow.mk 1 "t" none false 0]
    ⟨TodoRow.mk 1 "t" none false 0, by simp, rfl⟩

/-- Elementwise effect of the UPDATE statement: each row either gains
is_completed (when it matches the title) or is untouched. -/
theorem complete_update_forall₂ (title : String) (db : TodoDb) :
    List.Forall₂ (fun r r' =>
        (r.title = title → r' = { r with is_completed := true })
        ∧ (r.title ≠ title → r' = r)) db
      (db.map fun r =>
        if r.title = title then { r with is_completed := true } else r) := by
  induction db with
  | nil => exact List.Forall₂.nil
  | cons r rest ih =>
      refine List.Forall₂.cons ?_ ih
      by_cases hr : r.title = title
      · simp [hr]
      · simp [hr]

/-- C5: `complete_todo` and `delete_todo` fail with NotFound exactly when
the affected-row count of their single statement is zero; when one or more
rows match, the operation succeeds and affects all matching rows
(completion sets is_completed on every matching row and touches no other;
deletion removes every matching row and keeps every other). -/
theorem complete_delete_contract (title : String) (db : TodoDb) :
    ((∃ msg, complete_todo title db = .error msg)
        ↔ (db.filter fun r => r.title == title) = [])
    ∧ ((∃ msg, delete_todo title db = .error msg)
        ↔ (db.filter fun r => r.title == title) = [])
    ∧ ((db.filter fun r => r.title == title) ≠ [] →
        (∃ db', complete_todo title db = .ok db'
          ∧ List.Forall₂ (fun r r' =>
              (r.title = title → r' = { r with is_completed := true })
              ∧ (r.title ≠ title → r' = r)) db db')
        ∧ (∃ db', delete_todo title db = .ok db'
          ∧ (∀ r ∈ db', r.title ≠ title)
          ∧ (∀ r ∈ db, r.title ≠ title → r ∈ db'))) := by
  refine ⟨?_, ?_, ?_⟩
  · by_cases hc : (db.filter fun r => r.title == title) = []
    · simp [complete_todo, hc]
    · have : ¬ (db.filter fun r => r.title == title).length = 0 := by
        simpa [List.length_eq_zero] using hc
      simp [complete_todo, this, hc]
  · by_cases hc : (db.filter fun r => r.title == title) = []
    · simp [delete_todo, hc]
    · have : ¬ (db.filter fun r => r.title == title).length = 0 := by
        simpa [List.length_eq_zero] using hc
      simp [delete_todo, this, hc]
  · intro hc
    have hcount : ¬ (db.filter fun r => r.title == title).length = 0 := by
      simpa [List.length_eq_zero] using hc
    constructor
    · refine ⟨db.map fun r =>
          if r.title = title then { r with is_completed := true } else r,
        ?_, ?_⟩
      · simp only [complete_todo]
        rw [if_neg hcount]
      · exact complete_update_forall₂ title db
    · refine ⟨db.filter fun r => !(r.title == title), ?_, ?_, ?_⟩
      · simp only [delete_todo]
        rw [if_neg hcount]
      · intro r hr
        have := (List.mem_filter.mp hr).2
        simpa using this
      · intro r hr hrt
        exact List.mem_filter.mpr ⟨hr, by simpa using hrt⟩

/-- Witness for C5: deleting the matching row of a two-row table removes
it and keeps the other row. -/
theorem complete_delete_contract_witness :
    ∃ db', delete_todo "a"
        [TodoRow.mk 1 "a" none false 0, TodoRow.mk 2 "b" none false 1] = .ok db'
      ∧ (∀ r ∈ db', r.title ≠ "a")
      ∧ (∀ r ∈ [TodoRow.mk 1 "a" none false 0, TodoRow.mk 2 "b" none false 1],
          r.title ≠ "a" → r ∈ db') :=
  ((complete_delete_contract "a"
      [TodoRow.mk 1 "a" none false 0, TodoRow.mk 2 "b" none false 1]).2.2
    (by decide)).2

/-! ## Replacement lemmas -/

/-- One scan step of `str.replace` when the pattern matches at the head. -/
theorem pyReplace_head_match (old new b : List Char) (hold : old ≠ []) :
    pyReplace old new (old ++ b) = new ++ pyReplace old new b := by
  cases old with
  | nil => exact absurd rfl hold
  | cons o old' =>
      have hpre : (o :: old').isPrefixOf ((o :: old') ++ b) = true :=
        List.isPrefixOf_iff_prefix.mpr (List.prefix_append _ _)
      rw [List.cons_append, pyReplace]
      rw [dif_pos ⟨hold, by rw [← List.cons_append]; exact hpre⟩]
      rw [List.length_cons, List.drop_succ_cons, List.drop_left]

/-- One scan step of `str.replace` when the pattern does not match at the
head. -/
theorem pyReplace_cons (old new : List Char) (c : Char) (rest : List Char)
    (hold : old ≠ []) (hno : ¬ old.isPrefixOf (c :: rest) = true) :
    pyReplace old new (c :: rest) = c :: pyReplace old new rest := by
  rw [pyReplace]
  rw [dif_neg (fun hh => hno hh.2), if_neg hold]

/-- A nonempty pattern that occurs at no position of the string is left
alone by `str.replace`. -/
theorem pyReplace_no_occ (old new s : List Char) (hold : old ≠ [])
    (hno : ∀ i, i < s.length → ¬ old.isPrefixOf (s.drop i) = true) :
    pyReplace old new s = s := by
  induction s with
  | nil => rw [pyReplace, if_neg hold]
  | cons c rest ih =>
      have h0 : ¬ old.isPrefixOf (c :: rest) = true := by
        have := hno 0 (by simp)
        simpa using this
      rw [pyReplace_cons old new c rest hold h0]
      refine congrArg (c :: ·) (ih ?_)
      intro i hi
      have := hno (i + 1) (by simpa using hi)
      simpa [List.drop_succ_cons] using this

/-- The leftmost-occurrence recurrence of `str.replace`: if the pattern
does not occur anywhere inside the prearranged head `a`, the scan copies
`a`, replaces the occurrence after it, and continues on the tail. -/
theorem pyReplace_append (old new a b : List Char) (hold : old ≠ [])
    (hfirst : ∀ i, i < a.length →
      ¬ old.isPrefixOf ((a ++ old ++ b).drop i) = true) :
    pyReplace old new (a ++ old ++ b) = a ++ new ++ pyReplace old new b := by
  induction a with
  | nil =>
      simp only [List.nil_append]
      rw [pyReplace_head_match old new b hold]
  | cons x a' ih =>
      have h0 : ¬ old.isPrefixOf (x :: (a' ++ old ++ b)) = true := by
        have := hfirst 0 (by simp)
        simpa using this
      show pyReplace old new (x :: (a' ++ old ++ b))
        = x :: (a' ++ new ++ pyReplace old new b)
      rw [pyReplace_cons old new x (a' ++ old ++ b) hold h0]
      refine congrArg (x :: ·) (ih ?_)
      intro i hi
      have := hfirst (i + 1) (by simpa using Nat.succ_lt_succ hi)
      simpa [List.drop_succ_cons] using this

/-- A pattern occurrence inside `b` is an occurrence inside `a ++ old ++ b`
shifted past `a ++ old`. -/
theorem occ_shift (old a b : List Char) (j : Nat)
    (hj : old.isPrefixOf (b.drop j) = true) :
    old.isPrefixOf ((a ++ old ++ b).drop (a.length + old.length + j)) = true := by
  have h1 : a ++ old ++ b = (a ++ old) ++ b := by
    rw [List.append_assoc]
  rw [h1]
  have h2 : a.length + old.length + j = (a ++ old).length + j := by
    rw [List.length_append]
  rw [h2, List.drop_append]
  exact hj

/-! ## Edit claims -/

/-- C2: `edit_document` fails with NotFound when the id is absent;
otherwise it stores the old content with every literal occurrence of
`old_str` replaced by `new_str`, scanning left to right: the leftmost
occurrence is replaced and the scan continues after it, a unique occurrence
is replaced exactly, and when `old_str` does not occur the map is left
unchanged. -/
theorem edit_document_spec (d : DocMap) (doc_id old_str new_str : String) :
    (dictGet doc_id d = none →
        edit_document doc_id old_str new_str d
          = .error ("Document with id " ++ doc_id ++ " not found"))
    ∧ (∀ content a b, dictGet doc_id d = some content →
        old_str.data ≠ [] →
        content.data = a ++ old_str.data ++ b →
        (∀ i, i < a.length →
          ¬ old_str.data.isPrefixOf (content.data.drop i) = true) →
        edit_document doc_id old_str new_str d
          = .ok (dictSet doc_id
              (String.mk (a ++ new_str.data
                ++ pyReplace old_str.data new_str.data b)) d))
    ∧ (∀ content a b, dictGet doc_id d = some content →
        old_str.data ≠ [] →
        content.data = a ++ old_str.data ++ b →
        (∀ i, i < content.data.length →
          old_str.data.isPrefixOf (content.data.drop i) = true → i = a.length) →
        edit_document doc_id old_str new_str d
          = .ok (dictSet doc_id (String.mk (a ++ new_str.data ++ b)) d))
    ∧ (∀ content, dictGet doc_id d = some content →
        old_str.data ≠ [] →
        (∀ i, i < content.data.length →
          ¬ old_str.data.isPrefixOf (content.data.drop i) = true) →
        edit_document doc_id old_str new_str d = .ok d) := by
  refine ⟨?_, ?_, ?_, ?_⟩
  · intro hget
    simp [edit_document, hget]
  · intro content a b hget hold hdecomp hfirst
    simp only [edit_document, hget]
    rw [strReplace, hdecomp]
    rw [pyReplace_append old_str.data new_str.data a b hold
      (by rw [← hdecomp]; exact hfirst)]
  · intro content a b hget hold hdecomp honce
    have hblen : ∀ j, j < b.length →
        ¬ old_str.data.isPrefixOf (b.drop j) = true := by
      intro j hj hocc
      have hshift := occ_shift old_str.data a b j hocc
      have hlt : a.length + old_str.data.length + j < content.data.length := by
        rw [hdecomp, List.append_assoc, List.length_append, List.length_append]
        omega
      have := honce _ hlt (by rw [hdecomp]; exact hshift)
      have holdpos : 0 < old_str.data.length := List.length_pos.mpr hold
      omega
    have hfirst : ∀ i, i < a.length →
        ¬ old_str.data.isPrefixOf (content.data.drop i) = true := by
      intro i hi hocc
      have hilt : i < content.data.length := by
        rw [hdecomp, List.length_append, List.length_append]
        omega
      have := honce i hilt hocc
      omega
    simp only [edit_document, hget]
    rw [strReplace, hdecomp]
    rw [pyReplace_append old_str.data new_str.data a b hold
      (by rw [← hdecomp]; exact hfirst)]
    rw [pyReplace_no_occ old_str.data new_str.data b hold hblen]
  · intro content hget hold hno
    simp only [edit_document, hget]
    rw [strReplace, pyReplace_no_occ old_str.data new_str.data content.data hold hno]
    cases content with
    | mk data => rw [dictSet_self _ _ _ hget]

/-- Witness for C2: a unique occurrence is replaced in a one-entry dict. -/
theorem edit_document_spec_witness :
    edit_document "a.txt" "world" "there" [("a.txt", "hello world")]
      = .ok (dictSet "a.txt"
          (String.mk ("hello ".data ++ "there".data ++ []))
          [("a.txt", "hello world")]) :=
  (edit_document_spec [("a.txt", "hello world")] "a.txt" "world" "there").2.2.1
    "hello world" "hello ".data [] (by decide) (by decide) (by decide) (by decide)

/-- Replacing the empty pattern interleaves the replacement before every
character and appends one copy at the end. -/
theorem pyReplace_nil_old (new s : List Char) :
    pyReplace [] new s = new ++ s.flatMap (fun c => c :: new) := by
  induction s with
  | nil => simp [pyReplace]
  | cons c rest ih =>
      rw [pyReplace]
      rw [dif_neg (fun hh => hh.1 rfl)]
      rw [if_pos rfl]
      simp [ih]

/-- Length of the empty-pattern replacement. -/
theorem pyReplace_nil_old_length (new s : List Char) :
    (pyReplace [] new s).length = new.length + s.length * (new.length + 1) := by
  rw [pyReplace_nil_old]
  induction s with
  | nil => simp
  | cons c rest ih =>
      simp only [List.flatMap_cons, List.length_append, List.length_cons]
      rw [Nat.succ_mul]
      rw [List.length_append] at ih
      omega

/-- C9: with the empty string as `old_str` and a non-empty `new_str`,
`edit_document` is not a no-op on a document with non-empty content: the
stored content becomes `new_str` interleaved before every character and
appended at the end. -/
theorem edit_document_empty_old (d : DocMap) (doc_id new_str : String) :
    ∀ content, dictGet doc_id d = some content →
      content.data ≠ [] → new_str.data ≠ [] →
      edit_document doc_id "" new_str d
        = .ok (dictSet doc_id
            (String.mk (new_str.data
              ++ content.data.flatMap (fun c => c :: new_str.data))) d)
      ∧ strReplace content "" new_str ≠ content := by
  intro content hget hcontent hnew
  constructor
  · simp only [edit_document, hget]
    rw [strReplace]
    rw [show ("" : String).data = [] from rfl]
    rw [pyReplace_nil_old]
  · intro heq
    have hlen : (strReplace content "" new_str).data.length = content.data.length := by
      rw [heq]
    rw [strReplace] at hlen
    rw [show ("" : String).data = [] from rfl] at hlen
    rw [pyReplace_nil_old_length] at hlen
    have hnpos : 0 < new_str.data.length := List.length_pos.mpr hnew
    have hcpos : 0 < content.data.length := List.length_pos.mpr hcontent
    have : content.data.length * (new_str.data.length + 1)
        ≥ content.data.length * 1 :=
      Nat.mul_le_mul_left _ (by omega)
    omega

/-- Witness for C9: inserting "x" around every character of "ab". -/
theorem edit_document_empty_old_witness :
    edit_document "b.txt" "" "x" [("b.txt", "ab")]
      = .ok (dictSet "b.txt"
          (String.mk ("x".data ++ "ab".data.flatMap (fun c => c :: "x".data)))
          [("b.txt", "ab")])
    ∧ strReplace "ab" "" "x" ≠ "ab" :=
  edit_document_empty_old [("b.txt", "ab")] "b.txt" "x" "ab"
    (by decide) (by decide) (by decide)

/-! ## Weather claims -/

/-- A feature whose `properties` entry is an object projects successfully,
each field drawn from `properties` with default "Unknown". -/
theorem format_ok (fields props : List (String × Json))
    (h : jsonGet "properties" fields = some (Json.obj props)) :
    format_weather_alert (Json.obj fields)
      = .ok (WeatherAlert.mk
          ((jsonGet "event" props).getD (.str "Unknown"))
          ((jsonGet "areaDesc" props).getD (.str "Unknown"))
          ((jsonGet "severity" props).getD (.str "Unknown"))
          ((jsonGet "description" props).getD (.str "Unknown"))
          ((jsonGet "instruction" props).getD (.str "Unknown"))) := by
  simp [format_weather_alert, h]

/-- When every feature projects successfully, the comprehension returns the
element-wise projections, in order. -/
theorem listAlerts_ok (feats : List Json)
    (h : ∀ f ∈ feats, ∃ a, format_weather_alert f = .ok a) :
    ∃ alerts, listAlerts feats = .ok alerts
      ∧ alerts.length = feats.length
      ∧ ∀ i (hi : i < feats.length) (ha : i < alerts.length),
          format_weather_alert (feats.get ⟨i, hi⟩) = .ok (alerts.get ⟨i, ha⟩) := by
  induction feats with
  | nil => exact ⟨[], rfl, rfl, fun i hi => absurd hi (Nat.not_lt_zero i)⟩
  | cons f rest ih =>
      obtain ⟨a, ha⟩ := h f (List.mem_cons_self f rest)
      obtain ⟨alerts, hl, hlen, hpt⟩ :=
        ih (fun g hg => h g (List.mem_cons_of_mem f hg))
      refine ⟨a :: alerts, by simp [listAlerts, ha, hl], by simp [hlen], ?_⟩
      intro i hi hai
      cases i with
      | zero => simpa using ha
      | succ j =>
          simp only [List.length_cons] at hi hai
          exact hpt j (Nat.lt_of_succ_lt_succ hi) (Nat.lt_of_succ_lt_succ hai)

/-- One failing projection makes the whole comprehension raise. -/
theorem listAlerts_error_of_mem (feats : List Json) (f : Json) (e : String)
    (hf : f ∈ feats) (he : format_weather_alert f = .error e) :
    ∃ msg, listAlerts feats = .error msg := by
  induction feats with
  | nil => cases hf
  | cons g rest ih =>
      rcases List.mem_cons.mp hf with rfl | hmem
      · exact ⟨e, by simp [listAlerts, he]⟩
      · cases hg : format_weather_alert g with
        | error e₁ => exact ⟨e₁, by simp [listAlerts, hg]⟩
        | ok a =>
            obtain ⟨msg, hmsg⟩ := ih hmem
            exact ⟨msg, by simp [listAlerts, hg, hmsg]⟩

/-- C4: on a successful upstream response whose features all carry a
properties object, `get_weather_alerts` returns exactly the features array
mapped element-wise through the WeatherAlert projection, with each of the
five fields defaulting to "Unknown" when its subfield is absent; zero
features yield the empty sequence. -/
theorem get_weather_alerts_success (state : String) (feats : List Json)
    (h : ∀ f ∈ feats, ∃ fields props, f = Json.obj fields
        ∧ jsonGet "properties" fields = some (Json.obj props)) :
    ∃ alerts,
      get_weather_alerts state
          (.success (Json.obj [("features", Json.arr feats)])) = .ok alerts
      ∧ alerts.length = feats.length
      ∧ (∀ i (hi : i < feats.length) (ha : i < alerts.length),
          format_weather_alert (feats.get ⟨i, hi⟩) = .ok (alerts.get ⟨i, ha⟩))
      ∧ (feats = [] → alerts = [])
      ∧ (∀ props a, jsonGet "severity" props = none →
          format_weather_alert (Json.obj [("properties", Json.obj props)])
            = .ok a →
          a.Severity = Json.str "Unknown") := by
  have hok : ∀ f ∈ feats, ∃ a, format_weather_alert f = .ok a := by
    intro f hf
    obtain ⟨fields, props, rfl, hp⟩ := h f hf
    exact ⟨_, format_ok fields props hp⟩
  obtain ⟨alerts, hl, hlen, hpt⟩ := listAlerts_ok feats hok
  refine ⟨alerts, ?_, hlen, hpt, ?_, ?_⟩
  · simp [get_weather_alerts, jsonGet, hl]
  · intro hfe
    subst hfe
    exact List.length_eq_zero.mp hlen
  · intro props a hsev hfmt
    rw [format_ok [("properties", Json.obj props)] props (by simp [jsonGet])]
      at hfmt
    obtain rfl : a = _ := by injection hfmt with h₁; exact h₁.symm
    simp [hsev]

/-- Witness for C4: a mock response with zero features yields the empty
sequence. -/
theorem get_weather_alerts_success_witness :
    ∃ alerts, get_weather_alerts "ZZ"
        (.success (Json.obj [("features", Json.arr [])])) = .ok alerts
      ∧ alerts = [] := by
  obtain ⟨alerts, h₁, _, _, h₄, _⟩ :=
    get_weather_alerts_success "ZZ" [] (by intro f hf; cases hf)
  exact ⟨alerts, h₁, h₄ rfl⟩

/-- C10: when some feature of the array lacks a `properties` object, the
whole call fails with the wrapped error and no partial sequence of alerts
is returned. -/
theorem get_weather_alerts_missing_properties (state : String)
    (feats : List Json)
    (h : ∃ f ∈ feats, ∃ fields, f = Json.obj fields
        ∧ jsonGet "properties" fields = none) :
    ∃ msg, get_weather_alerts state
          (.success (Json.obj [("features", Json.arr feats)]))
        = .error (wrapError state msg)
      ∧ ∀ alerts, get_weather_alerts state
          (.success (Json.obj [("features", Json.arr feats)])) ≠ .ok alerts := by
  obtain ⟨f, hf, fields, rfl, hp⟩ := h
  have he : format_weather_alert (Json.obj fields) = .error "AttributeError" := by
    simp [format_weather_alert, hp]
  obtain ⟨msg, hmsg⟩ := listAlerts_error_of_mem feats _ _ hf he
  have heq : get_weather_alerts state
      (.success (Json.obj [("features", Json.arr feats)]))
      = .error (wrapError state msg) := by
    simp [get_weather_alerts, jsonGet, hmsg]
  exact ⟨msg, heq, fun alerts hok => by rw [heq] at hok; cases hok⟩

/-- Witness for C10: one feature with no `properties` key fails the whole
call. -/
theorem get_weather_alerts_missing_properties_witness :
    ∃ msg, get_weather_alerts "CA"
          (.success (Json.obj [("features", Json.arr [Json.obj []])]))
        = .error (wrapError "CA" msg)
      ∧ ∀ alerts, get_weather_alerts "CA"
          (.success (Json.obj [("features", Json.arr [Json.obj []])]))
          ≠ .ok alerts :=
  get_weather_alerts_missing_properties "CA" [Json.obj []]
    ⟨Json.obj [], by simp, [], rfl, rfl⟩

end MCPServer
